import Mathlib

/-!
A verification development for the edge-coordinated consensus engine of the
serverless-blockchain-network repository.  The consensus coordinator
(`ConsensusCoordinator` durable object), the validator's state-root check
(`validateStateRoot`) and the proposer trigger handler (`handleTrigger`) are
shallowly embedded: JavaScript string-keyed objects become association lists
with in-place-update/append-on-new semantics, JS `number` and `bigint` become
`Int`, `Date.now()` becomes an explicit `now` argument, and the storage
transaction wrapper becomes explicit state passing where a failing operation
returns the unchanged state together with its error.  Cryptographic primitives
(SHA-256, Ed25519 verification, and the transaction/block hashing built on
SHA-256) are untranslatable bit-level functions and are passed as explicit
function parameters; everything built on top of them, including the canonical
JSON encoding that feeds `sha256Hex`, is translated from the source.
-/

namespace SBN

/-- Lookup in an association list modelling a JavaScript string-keyed object:
the first binding for the key wins (JS objects never hold two bindings for one
key, so this is the JS property read). -/
def jsLookup {κ α : Type} [DecidableEq κ] : List (κ × α) → κ → Option α
  | [], _ => none
  | (k', v) :: rest, k => if k' = k then some v else jsLookup rest k

/-- Property read with a default, modelling the `obj[k] || d` pattern of the
source (all defaults used by the source are `0`/`BigInt(0)`, which are also the
JS falsy values of their types, so `||` coincides with read-with-default). -/
def jsGet {κ α : Type} [DecidableEq κ] (m : List (κ × α)) (k : κ) (d : α) : α :=
  (jsLookup m k).getD d

/-- Property write modelling JS object assignment / object spread with an
override: an existing binding is updated in place (its position is kept), a new
key is appended at the end, as JS insertion order does. -/
def jsSet {κ α : Type} [DecidableEq κ] : List (κ × α) → κ → α → List (κ × α)
  | [], k, v => [(k, v)]
  | (k', v') :: rest, k, v =>
      if k' = k then (k, v) :: rest else (k', v') :: jsSet rest k v

/-- Membership test modelling the `k in obj` / truthy-lookup patterns. -/
def jsContains {κ α : Type} [DecidableEq κ] (m : List (κ × α)) (k : κ) : Bool :=
  (jsLookup m k).isSome

/-- Sum of the values of an association list (used for total-supply
conservation: the sum of all account balances). -/
def valsSum {κ : Type} (m : List (κ × Int)) : Int :=
  (m.map Prod.snd).sum

end SBN

namespace SBN

/-- Transaction record (`interface Transaction`, part_008).  `amount`,
`gasPrice`, `gasLimit` are `bigint` and `nonce`, `timestamp` are JS numbers;
all are modelled as `Int`.  The `from` and `to` fields are named `from_` and `to_` because `from`
and `to` are reserved in Lean. -/
structure Transaction where
  hash : String
  from_ : String
  to_ : String
  amount : Int
  nonce : Int
  publicKey : String
  timestamp : Int
  gasPrice : Int
  gasLimit : Int
  signature : String
deriving DecidableEq

/-- Block header (`interface BlockHeader`, part_008). -/
structure BlockHeader where
  height : Int
  timestamp : Int
  prevHash : String
  txRoot : String
  stateRoot : String
  proposer : String
  txCount : Int
deriving DecidableEq

/-- Validator vote (`interface ValidatorVote`, part_008). -/
structure ValidatorVote where
  validatorId : String
  validatorPubKey : String
  signature : String
  timestamp : Int
deriving DecidableEq

/-- Full block (`interface Block`, part_008). -/
structure Block where
  header : BlockHeader
  transactions : List Transaction
  hash : String
  proposerSignature : String
  votes : List ValidatorVote
deriving DecidableEq

/-- World state (`interface WorldState`, part_008): balances and nonces are
JS objects keyed by address. -/
structure WorldState where
  balances : List (String × Int)
  nonces : List (String × Int)
  latestBlockHeight : Int
  latestBlockHash : String
  genesisHash : String
  totalTransactions : Int
  lastUpdated : Int
deriving DecidableEq

/-- Pending queue (`interface PendingQueue`, part_008).  `currentBlock` and
`processingStartedAt` are optional fields. -/
structure PendingQueue where
  transactions : List Transaction
  lastUpdated : Int
  processing : Bool
  currentBlock : Option Block
  processingStartedAt : Option Int
deriving DecidableEq

/-- Consensus configuration (`interface ConsensusConfig`, part_008).
`blockMaxTxs` and `requiredSignatures` are non-negative counts. -/
structure ConsensusConfig where
  blockMaxTxs : Nat
  blockMinTxs : Nat
  consensusTimeoutMs : Int
  alarmTimeoutMs : Int
  validators : List String
  requiredSignatures : Nat
deriving DecidableEq

/-- The whole record the coordinator keeps under its single storage key
(`ConsensusCoordinatorState`): world state, pending queue, block history
(a JS object keyed by height) and the consensus config.  The in-memory
caches (`this.worldState` …) mirror this record, so `this.consensusConfig`
is modelled by the `consensusConfig` field. -/
structure CoordState where
  worldState : WorldState
  pendingQueue : PendingQueue
  blockHistory : List (Int × Block)
  consensusConfig : ConsensusConfig
deriving DecidableEq

end SBN

namespace SBN

/-- One hex digit, used by the `\u00XX` escape of JSON string serialization. -/
def hexDigit (n : Nat) : String :=
  String.singleton ("0123456789abcdef".toList.getD n '0')

/-- JSON escaping of one character, following ECMA-262 QuoteJSONString as
performed by `JSON.stringify` (the addresses and decimal strings the engine
serializes are plain ASCII, for which this is the identity). -/
def jsonEscapeChar (c : Char) : String :=
  if c = '"' then "\\\""
  else if c = '\\' then "\\\\"
  else if c.toNat = 8 then "\\b"
  else if c.toNat = 12 then "\\f"
  else if c = '\n' then "\\n"
  else if c.toNat = 13 then "\\r"
  else if c.toNat = 9 then "\\t"
  else if c.toNat < 32 then "\\u00" ++ hexDigit (c.toNat / 16) ++ hexDigit (c.toNat % 16)
  else String.singleton c

/-- JSON serialization of a string value (quote, escape, quote). -/
def jsonStr (s : String) : String :=
  "\"" ++ String.join (s.data.map jsonEscapeChar) ++ "\"" 

/-- Left brace as text (JSON object opener). -/
def lbrace : String := "\x7b"

/-- Right brace as text (JSON object closer). -/
def rbrace : String := "\x7d"

/-- The replacer array `Object.keys(stateData).sort()` that `objectToBytes`
(genesis.ts) passes to `JSON.stringify` for the coordinator's and validator's
`stateData = \x7b balances, nonces \x7d` object: the sorted top-level key
list.  Per ECMA-262, a replacer ARRAY acts as a property whitelist applied at
EVERY nesting level (arrays excepted), with properties emitted in replacer
order. -/
def stateDataReplacer : List String := ["balances", "nonces"]

/-- Serialization of the `balances` entry value: an array of
`[address, decimalString]` pairs.  Array elements are not filtered by the
replacer. -/
def encodeBalancesArray (bal : List (String × String)) : String :=
  "[" ++ String.intercalate ","
    (bal.map (fun p => "[" ++ jsonStr p.1 ++ "," ++ jsonStr p.2 ++ "]")) ++ "]"

/-- Serialization of the nested `nonces` object under the replacer array: only
properties whose names occur in the replacer survive, in replacer order.
Address keys are not `"balances"`/`"nonces"`, so in practice this renders
`\x7b\x7d`. -/
def encodeNoncesObject (non : List (String × Int)) : String :=
  lbrace ++ String.intercalate ","
    ((stateDataReplacer.filter (fun k => jsContains non k)).map
      (fun k => jsonStr k ++ ":" ++ toString (jsGet non k 0))) ++ rbrace

/-- Model of `objectToBytes(stateData)` for
`stateData = \x7b balances: Object.entries(b).map(([k,v]) => [k,v.toString()]), nonces \x7d`
(part_007 `computeStateRoot`, part_009 `validateStateRoot`): canonical JSON via
`JSON.stringify(stateData, Object.keys(stateData).sort())`.  The UTF-8 byte
conversion (`stringToBytes`) is injective, so the encoding is kept as a
`String` and the byte step is folded into the hash parameter. -/
def encodeStateData (bal : List (String × Int)) (non : List (String × Int)) : String :=
  lbrace ++ jsonStr "balances" ++ ":"
    ++ encodeBalancesArray (bal.map (fun p => (p.1, toString p.2)))
    ++ "," ++ jsonStr "nonces" ++ ":" ++ encodeNoncesObject non ++ rbrace

/-- The simulation loop of the coordinator's `computeStateRoot` (part_007
lines 1633-1644): executes each transaction whenever the sender's running
balance suffices — note that it checks NO nonce — and otherwise leaves the
running state unchanged. -/
def simulatePack (bal non : List (String × Int)) :
    List Transaction → List (String × Int) × List (String × Int)
  | [] => (bal, non)
  | tx :: rest =>
      let fromBalance := jsGet bal tx.from_ 0
      if fromBalance ≥ tx.amount then
        let bal1 := jsSet bal tx.from_ (fromBalance - tx.amount)
        let bal2 := jsSet bal1 tx.to_ (jsGet bal1 tx.to_ 0 + tx.amount)
        let non1 := jsSet non tx.from_ (jsGet non tx.from_ 0 + 1)
        simulatePack bal2 non1 rest
      else
        simulatePack bal non rest

/-- The canonical-JSON pre-image hashed by the coordinator's
`computeStateRoot`: simulate the transactions over a copy of the committed
balances/nonces, then encode the resulting `stateData`. -/
def stateRootPreimage (worldState : WorldState) (txs : List Transaction) : String :=
  let sim := simulatePack worldState.balances worldState.nonces txs
  encodeStateData sim.1 sim.2

/-- Model of `ConsensusCoordinator.computeStateRoot` (part_007 lines 1629-1654):
`sha256Hex(objectToBytes(stateData))` over the simulated post-state, with the
SHA-256-over-UTF-8 step abstracted as the function parameter `sha`. -/
def computeStateRoot (sha : String → String) (worldState : WorldState)
    (txs : List Transaction) : String :=
  sha (stateRootPreimage worldState txs)

/-- The execution loop of `ConsensusCoordinator.commitBlock` (part_007 lines
1409-1436): each transaction is skipped when its nonce differs from the
sender's running nonce or its amount exceeds the sender's running balance,
and otherwise debited/credited with the sender's nonce incremented; executed
transactions are collected in order. -/
def executeCommit (bal non : List (String × Int)) :
    List Transaction → List (String × Int) × List (String × Int) × List Transaction
  | [] => (bal, non, [])
  | tx :: rest =>
      let currentNonce := jsGet non tx.from_ 0
      if tx.nonce ≠ currentNonce then
        executeCommit bal non rest
      else
        let fromBalance := jsGet bal tx.from_ 0
        if fromBalance < tx.amount then
          executeCommit bal non rest
        else
          let bal1 := jsSet bal tx.from_ (fromBalance - tx.amount)
          let bal2 := jsSet bal1 tx.to_ (jsGet bal1 tx.to_ 0 + tx.amount)
          let non1 := jsSet non tx.from_ (currentNonce + 1)
          let res := executeCommit bal2 non1 rest
          (res.1, res.2.1, tx :: res.2.2)

end SBN

namespace SBN

/-- Result of `ConsensusCoordinator.addTransaction`; the error constructors
carry what the source interpolates into its error strings. -/
inductive AddTxResult where
  | ok
  | duplicateTransaction
  | sequenceMismatch (expected : Int)
  | insufficientBalance
deriving DecidableEq

/-- Model of `ConsensusCoordinator.addTransaction` (part_007 lines 1142-1188): under
the storage transaction, reject a hash already queued, then a nonce different
from the committed nonce, then an amount above the committed balance;
otherwise push the transaction and stamp `lastUpdated`.  A failing branch
performs no `txn.put`, so the unchanged state is returned with the error. -/
def addTransaction (now : Int) (s : CoordState) (tx : Transaction) :
    CoordState × AddTxResult :=
  let queue := s.pendingQueue
  let worldState := s.worldState
  if queue.transactions.any (fun t => t.hash == tx.hash) then
    (s, .duplicateTransaction)
  else
    let currentNonce := jsGet worldState.nonces tx.from_ 0
    if tx.nonce ≠ currentNonce then
      (s, .sequenceMismatch currentNonce)
    else
      let balance := jsGet worldState.balances tx.from_ 0
      if balance < tx.amount then
        (s, .insufficientBalance)
      else
        let queue' := { queue with
          transactions := queue.transactions ++ [tx],
          lastUpdated := now }
        ({ s with pendingQueue := queue' }, .ok)

/-- Result of `ConsensusCoordinator.acquireProcessingLock`. -/
inductive AcquireResult where
  | ok (queue : PendingQueue)
  | roundInProgress
  | empty
deriving DecidableEq

/-- JS truthiness of the optional `processingStartedAt` timestamp, as tested
by `if (queue.processingStartedAt)`: an absent value and the number `0` are
both falsy. -/
def jsTruthyTime : Option Int → Bool
  | none => false
  | some t => t != 0

/-- Model of `ConsensusCoordinator.acquireProcessingLock` (part_007 lines 1280-1319):
fail `RoundInProgress` when the lock is held and `now - processingStartedAt`
is still below `consensusTimeoutMs`; then fail `Empty` on an empty queue;
otherwise take the lock, stamping `processingStartedAt` and `lastUpdated`,
and return the (mutated) queue snapshot. -/
def acquireProcessingLock (now : Int) (s : CoordState) :
    CoordState × AcquireResult :=
  let queue := s.pendingQueue
  let inProgress :=
    queue.processing &&
      (jsTruthyTime queue.processingStartedAt &&
        decide (now - (queue.processingStartedAt.getD 0)
          < s.consensusConfig.consensusTimeoutMs))
  if inProgress then
    (s, .roundInProgress)
  else if queue.transactions.length = 0 then
    (s, .empty)
  else
    let queue' := { queue with
      processing := true,
      processingStartedAt := some now,
      lastUpdated := now }
    ({ s with pendingQueue := queue' }, .ok queue')

/-- Model of `ConsensusCoordinator.releaseProcessingLock` (part_007 lines 1324-1349):
clear the lock fields (and the queue when `clearQueue`) and stamp
`lastUpdated`. -/
def releaseProcessingLock (now : Int) (clearQueue : Bool) (s : CoordState) :
    CoordState :=
  let queue := s.pendingQueue
  let queue' := { queue with
    processing := false,
    processingStartedAt := none,
    currentBlock := none,
    transactions := if clearQueue then [] else queue.transactions,
    lastUpdated := now }
  { s with pendingQueue := queue' }

/-- Result of `ConsensusCoordinator.commitBlock`; the error constructors carry
what the source interpolates into its error strings. -/
inductive CommitResult where
  | ok
  | wrongHeight (expected got : Int)
  | wrongParent
  | insufficientSignatures (required got : Nat)
deriving DecidableEq

/-- Model of `ConsensusCoordinator.commitBlock` (part_007 lines 1359-1495).  `verify`
is `verifyBlockSignature(block.hash, vote.signature, vote.validatorPubKey)`
(Ed25519 over `"block:" + blockHash`, abstracted).  Height and parent-hash
checks come first; votes are filtered by membership of `validatorPubKey` in
`config.validators` and by signature verification, with NO deduplication of
validators; on quorum the execution loop runs and the new world state, block
history, and filtered queue are written atomically. -/
def commitBlock (verify : String → String → String → Bool) (now : Int)
    (s : CoordState) (block : Block) (votes : List ValidatorVote) :
    CoordState × CommitResult :=
  let worldState := s.worldState
  let queue := s.pendingQueue
  if block.header.height ≠ worldState.latestBlockHeight + 1 then
    (s, .wrongHeight (worldState.latestBlockHeight + 1) block.header.height)
  else if block.header.prevHash ≠ worldState.latestBlockHash then
    (s, .wrongParent)
  else
    let validVotes := votes.filter (fun vote =>
      s.consensusConfig.validators.contains vote.validatorPubKey &&
        verify block.hash vote.signature vote.validatorPubKey)
    if validVotes.length < s.consensusConfig.requiredSignatures then
      (s, .insufficientSignatures s.consensusConfig.requiredSignatures validVotes.length)
    else
      let exec := executeCommit worldState.balances worldState.nonces block.transactions
      let newBalances := exec.1
      let newNonces := exec.2.1
      let executedTxs := exec.2.2
      let newWorldState : WorldState := {
        balances := newBalances,
        nonces := newNonces,
        latestBlockHeight := block.header.height,
        latestBlockHash := block.hash,
        genesisHash := worldState.genesisHash,
        totalTransactions := worldState.totalTransactions + executedTxs.length,
        lastUpdated := now }
      let newBlockHistory := jsSet s.blockHistory block.header.height block
      let remainingTxs := queue.transactions.filter
        (fun t => !(executedTxs.any (fun e => e.hash == t.hash)))
      let newQueue : PendingQueue := {
        transactions := remainingTxs,
        lastUpdated := now,
        processing := false,
        processingStartedAt := none,
        currentBlock := none }
      ({ worldState := newWorldState,
         pendingQueue := newQueue,
         blockHistory := newBlockHistory,
         consensusConfig := s.consensusConfig }, .ok)

/-- Result of `ConsensusCoordinator.packBlock`. -/
inductive PackResult where
  | ok (block : Block)
  | empty
deriving DecidableEq

/-- The abstract hashing functions `packBlock` depends on: `hashTransaction`
(SHA-256 of the canonical tx JSON rebuilt from the transaction's fields),
`computeMerkleRoot` over the hash list, `hashBlock` (SHA-256 of the header
JSON), and `sha256Hex ∘ stringToBytes` for the state root. -/
structure HashFns where
  hashTransaction : Transaction → String
  computeMerkleRoot : List String → String
  hashBlock : BlockHeader → String
  sha : String → String

/-- Model of `ConsensusCoordinator.packBlock` (part_007 lines 1548-1624): take the
first `blockMaxTxs` queued transactions, compute `txRoot` and the simulated
`stateRoot`, build the header at `latestBlockHeight + 1` on `latestBlockHash`,
hash it, store the candidate block and mark the queue processing. -/
def packBlock (h : HashFns) (now : Int) (proposerId : String) (s : CoordState) :
    CoordState × PackResult :=
  let worldState := s.worldState
  let queue := s.pendingQueue
  if queue.transactions.length = 0 then
    (s, .empty)
  else
    let txsToPack := queue.transactions.take s.consensusConfig.blockMaxTxs
    let txHashes := txsToPack.map h.hashTransaction
    let txRoot := h.computeMerkleRoot txHashes
    let stateRoot := computeStateRoot h.sha worldState txsToPack
    let header : BlockHeader := {
      height := worldState.latestBlockHeight + 1,
      timestamp := now,
      prevHash := worldState.latestBlockHash,
      txRoot := txRoot,
      stateRoot := stateRoot,
      proposer := proposerId,
      txCount := txsToPack.length }
    let blockHash := h.hashBlock header
    let block : Block := {
      header := header,
      transactions := txsToPack,
      hash := blockHash,
      proposerSignature := "",
      votes := [] }
    let queue' := { queue with
      processing := true,
      processingStartedAt := some now,
      currentBlock := some block }
    ({ s with pendingQueue := queue' }, .ok block)

end SBN

namespace SBN

/-- Result of the validator's `validateStateRoot` (part_009); the error
constructors carry what the source interpolates into its error strings. -/
inductive ValidateResult where
  | valid
  | invalidHeight (expected got : Int)
  | invalidPrevHash
  | invalidNonce (addr : String) (expected got : Int)
  | insufficientBalanceFor (addr : String) (has needs : Int)
  | invalidStateRoot (computed got : String)
deriving DecidableEq

/-- The validator's simulation loop (part_009 lines 414-439): unlike the
commit loop it RETURNS an error — rejecting the whole block — at the first
transaction whose nonce differs from the running nonce or whose amount
exceeds the running balance; otherwise it applies the transfer and
continues. -/
def validateTxLoop (bal non : List (String × Int)) :
    List Transaction → Except ValidateResult (List (String × Int) × List (String × Int))
  | [] => .ok (bal, non)
  | tx :: rest =>
      let currentNonce := jsGet non tx.from_ 0
      if tx.nonce ≠ currentNonce then
        .error (.invalidNonce tx.from_ currentNonce tx.nonce)
      else
        let fromBalance := jsGet bal tx.from_ 0
        if fromBalance < tx.amount then
          .error (.insufficientBalanceFor tx.from_ fromBalance tx.amount)
        else
          let bal1 := jsSet bal tx.from_ (fromBalance - tx.amount)
          let bal2 := jsSet bal1 tx.to_ (jsGet bal1 tx.to_ 0 + tx.amount)
          let non1 := jsSet non tx.from_ (currentNonce + 1)
          validateTxLoop bal2 non1 rest

/-- The validator's `validateStateRoot` (part_009 lines 397-457), from the
height check to the returned result, over the world state fetched from the
coordinator: check `height = latestBlockHeight + 1` and
`prevHash = latestBlockHash`, run the simulation loop (propagating its
rejection), encode the resulting `stateData` exactly as the coordinator does
(`sha256Hex(objectToBytes(stateData))`, `sha` abstracting the hash), and
report `invalidStateRoot` exactly when it differs from `header.stateRoot`. -/
def validateStateRoot (sha : String → String) (worldState : WorldState)
    (block : Block) : ValidateResult :=
  if block.header.height ≠ worldState.latestBlockHeight + 1 then
    .invalidHeight (worldState.latestBlockHeight + 1) block.header.height
  else if block.header.prevHash ≠ worldState.latestBlockHash then
    .invalidPrevHash
  else
    match validateTxLoop worldState.balances worldState.nonces block.transactions with
    | .error e => e
    | .ok (newBalances, newNonces) =>
        let computedStateRoot := sha (encodeStateData newBalances newNonces)
        if computedStateRoot ≠ block.header.stateRoot then
          .invalidStateRoot computedStateRoot block.header.stateRoot
        else
          .valid

/-- The JSON body of an HTTP response returned by the proposer's trigger
handler (api.ts): `success`, the HTTP status, and the `error` string. -/
structure TriggerResponse where
  success : Bool
  httpStatus : Nat
  error : Option String
deriving DecidableEq

/-- The coordinator's error string for each failing lock acquisition, as
relayed to the trigger handler by `acquireLock`. -/
def acquireErrorMessage : AcquireResult → Option String
  | .ok _ => none
  | .roundInProgress => some "Processing in progress"
  | .empty => some "No pending transactions"

/-- The lock-acquisition phase of `handleTrigger` (api.ts lines 938-964): call
`acquireProcessingLock` on the coordinator; when it fails, return a 409
response with `success: false` carrying the lock error (the later phases —
packing, signing, fan-out, commit — are reached only when the returned
response is `none` and are not modelled here, the claim under study being
about the failure path). -/
def handleTriggerLockPhase (now : Int) (s : CoordState) :
    CoordState × Option TriggerResponse :=
  match acquireProcessingLock now s with
  | (s', .ok _) => (s', none)
  | (s', r) =>
      (s', some { success := false, httpStatus := 409, error := acquireErrorMessage r })

/-- Quorum size `requiredSignatures = Math.ceil(validators.length * 2 / 3)` as computed by
`initGenesis` (part_007 line 1231), in exact arithmetic. -/
def requiredSigOf (n : Nat) : Nat := (2 * n + 2) / 3

/-- The coordinator state written by `initGenesis` (part_007 lines 1193-1254):
world state rebuilt from the genesis premine (balances/nonces), height 0 at
the genesis block's hash, a fresh empty queue, history holding exactly the
genesis block at key 0, and the config updated with the validator public keys
and the 2/3 quorum.  The genesis block itself is produced by
`generateGenesisBlock`, whose header is hard-coded at `height: 0`; it is a
parameter here because its hashes are SHA-256 images. -/
def initGenesisState (gb : Block) (initialBalances initialNonces : List (String × Int))
    (validatorPublicKeys : List String) (cfg : ConsensusConfig) (now : Int) :
    CoordState :=
  { worldState := {
      balances := initialBalances,
      nonces := initialNonces,
      latestBlockHeight := 0,
      latestBlockHash := gb.hash,
      genesisHash := gb.hash,
      totalTransactions := gb.transactions.length,
      lastUpdated := now },
    pendingQueue := {
      transactions := [],
      lastUpdated := now,
      processing := false,
      currentBlock := none,
      processingStartedAt := none },
    blockHistory := [(0, gb)],
    consensusConfig := { cfg with
      validators := validatorPublicKeys,
      requiredSignatures := requiredSigOf validatorPublicKeys.length } }

/-- One coordinator operation, as fired by any caller with any arguments: the
write endpoints addTransaction, acquireProcessingLock, releaseProcessingLock,
packBlock, commitBlock. -/
inductive Step : CoordState → CoordState → Prop where
  | addTx (s : CoordState) (now : Int) (tx : Transaction) :
      Step s (addTransaction now s tx).1
  | acquire (s : CoordState) (now : Int) :
      Step s (acquireProcessingLock now s).1
  | release (s : CoordState) (now : Int) (clearQueue : Bool) :
      Step s (releaseProcessingLock now clearQueue s)
  | pack (s : CoordState) (h : HashFns) (now : Int) (proposerId : String) :
      Step s (packBlock h now proposerId s).1
  | commit (s : CoordState) (verify : String → String → String → Bool)
      (now : Int) (block : Block) (votes : List ValidatorVote) :
      Step s (commitBlock verify now s block votes).1

/-- Reachability by any finite sequence of coordinator operations. -/
def Reachable (s s' : CoordState) : Prop :=
  Relation.ReflTransGen Step s s'

/-- Lookup of a block at a height in the block-history object. -/
def histGet (s : CoordState) (h : Int) : Option Block :=
  jsLookup s.blockHistory h

/-- The hash-chain invariant of the claim: the history is dense from 0 to
`latestBlockHeight`, and every stored block at a height `h ≥ 1` (up to the
latest height) carries `header.height = h` and links to the hash of the
stored block at `h - 1`. -/
def ChainInv (s : CoordState) : Prop :=
  (∀ h : Int, 0 ≤ h → h ≤ s.worldState.latestBlockHeight → (histGet s h).isSome) ∧
  (∀ h : Int, ∀ b : Block, 1 ≤ h → h ≤ s.worldState.latestBlockHeight →
    histGet s h = some b →
      b.header.height = h ∧
      ∃ prev : Block, histGet s (h - 1) = some prev ∧ b.header.prevHash = prev.hash)

/-- The auxiliary strengthening used for the induction: the chain invariant
together with a non-negative latest height and the fact that the block stored
at the latest height is the one `latestBlockHash` names. -/
def ChainInvAux (s : CoordState) : Prop :=
  ChainInv s ∧ 0 ≤ s.worldState.latestBlockHeight ∧
  ∃ tip : Block, histGet s s.worldState.latestBlockHeight = some tip ∧
    tip.hash = s.worldState.latestBlockHash

end SBN

namespace SBN

/-- A concrete genesis-shaped block used as history content in fixtures. -/
def gbFix : Block :=
  { header := { height := 0, timestamp := 0, prevHash := "0x00",
                txRoot := "0xtr", stateRoot := "0xsr", proposer := "genesis",
                txCount := 0 },
    transactions := [],
    hash := "0xgen",
    proposerSignature := "0x00",
    votes := [] }

/-- A transaction whose nonce (1) is one ahead of the sender's committed
nonce (0) while its amount (5) is within the sender's balance (10). -/
def txNonceAhead : Transaction :=
  { hash := "0xt1", from_ := "0xaa", to_ := "0xbb", amount := 5, nonce := 1,
    publicKey := "0xpk", timestamp := 0, gasPrice := 0, gasLimit := 21000,
    signature := "0xsig" }

/-- A committed world state with one funded account at nonce 0. -/
def wsOneAccount : WorldState :=
  { balances := [("0xaa", 10)], nonces := [], latestBlockHeight := 0,
    latestBlockHash := "0xgen", genesisHash := "0xgen", totalTransactions := 0,
    lastUpdated := 0 }

/-- A consensus config with three validators and the 2/3 quorum of 2. -/
def cfgThreeValidators : ConsensusConfig :=
  { blockMaxTxs := 20, blockMinTxs := 1, consensusTimeoutMs := 3000,
    alarmTimeoutMs := 300000, validators := ["0xv1", "0xv2", "0xv3"],
    requiredSignatures := 2 }

/-- A consensus config with a single validator and quorum 1. -/
def cfgOneValidator : ConsensusConfig :=
  { blockMaxTxs := 20, blockMinTxs := 1, consensusTimeoutMs := 3000,
    alarmTimeoutMs := 300000, validators := ["0xv1"], requiredSignatures := 1 }

/-- A coordinator state at genesis height with an empty queue and three
validators. -/
def stateAtGenesis : CoordState :=
  { worldState := wsOneAccount,
    pendingQueue := { transactions := [], lastUpdated := 0, processing := false,
                      currentBlock := none, processingStartedAt := none },
    blockHistory := [(0, gbFix)],
    consensusConfig := cfgThreeValidators }

/-- The single-validator variant of `stateAtGenesis`. -/
def stateOneValidator : CoordState :=
  { stateAtGenesis with consensusConfig := cfgOneValidator }

/-- An empty candidate block at height 1 on top of the genesis hash. -/
def blockOne : Block :=
  { header := { height := 1, timestamp := 0, prevHash := "0xgen",
                txRoot := "0xtr1", stateRoot := "0xsr1",
                proposer := "proposer-1", txCount := 0 },
    transactions := [],
    hash := "0xblk1",
    proposerSignature := "",
    votes := [] }

/-- A vote by the first validator on `blockOne`. -/
def voteV1 : ValidatorVote :=
  { validatorId := "validator-1", validatorPubKey := "0xv1",
    signature := "0xsig1", timestamp := 0 }

/-- A concrete stand-in for `verifyBlockSignature`: accepts exactly the first
validator's signature on `blockOne`'s hash. -/
def verifyFix : String → String → String → Bool := fun blockHash sg pk =>
  blockHash == "0xblk1" && sg == "0xsig1" && pk == "0xv1"

/-- The coordinator state produced by committing `blockOne` on
`stateOneValidator` (written out in full for the at-most-once-commit
witness). -/
def stateAfterBlockOne : CoordState :=
  { worldState := { balances := [("0xaa", 10)], nonces := [],
                    latestBlockHeight := 1, latestBlockHash := "0xblk1",
                    genesisHash := "0xgen", totalTransactions := 0,
                    lastUpdated := 0 },
    pendingQueue := { transactions := [], lastUpdated := 0, processing := false,
                      currentBlock := none, processingStartedAt := none },
    blockHistory := [(0, gbFix), (1, blockOne)],
    consensusConfig := cfgOneValidator }

/-- World state with one account at nonce 1 (for the state-root/sequence
claim). -/
def wsNonceOne : WorldState :=
  { balances := [("0xaa", 10)], nonces := [("0xaa", 1)], latestBlockHeight := 0,
    latestBlockHash := "0xgen", genesisHash := "0xgen", totalTransactions := 0,
    lastUpdated := 0 }

/-- Same balances as `wsNonceOne` but the account's nonce is 2. -/
def wsNonceTwo : WorldState :=
  { balances := [("0xaa", 10)], nonces := [("0xaa", 2)], latestBlockHeight := 0,
    latestBlockHash := "0xgen", genesisHash := "0xgen", totalTransactions := 0,
    lastUpdated := 0 }

/-- A candidate block at height 1 containing `txNonceAhead`, whose header
`stateRoot` is exactly the root the coordinator's pack simulation computes
for it (with the hash function instantiated to the identity). -/
def blockWithNonceAhead : Block :=
  { header := { height := 1, timestamp := 0, prevHash := "0xgen",
                txRoot := "0xtr1",
                stateRoot := stateRootPreimage wsOneAccount [txNonceAhead],
                proposer := "proposer-1", txCount := 1 },
    transactions := [txNonceAhead],
    hash := "0xblk2",
    proposerSignature := "",
    votes := [] }

/-- The claim-side reading of the lock-acquisition failure condition: the
lock is held and still fresh (`now - processingStartedAt` below the consensus
timeout). -/
def LockHeldFresh (now : Int) (s : CoordState) : Prop :=
  s.pendingQueue.processing = true ∧
  ∃ t, s.pendingQueue.processingStartedAt = some t ∧
    now - t < s.consensusConfig.consensusTimeoutMs

/-- A coordinator state whose processing lock is held with a start stamp of
5 ms past the epoch (so it is stale by `now = 4000`, fresh at `now = 100`)
and whose queue holds one transaction. -/
def stateHeldLock : CoordState :=
  { worldState := wsOneAccount,
    pendingQueue := { transactions := [txNonceAhead], lastUpdated := 0,
                      processing := true, currentBlock := none,
                      processingStartedAt := some 5 },
    blockHistory := [(0, gbFix)],
    consensusConfig := cfgThreeValidators }

end SBN

namespace SBN

@[simp] theorem jsLookup_nil {κ α : Type} [DecidableEq κ] (k : κ) :
    jsLookup ([] : List (κ × α)) k = none := rfl

theorem jsLookup_jsSet_self {κ α : Type} [DecidableEq κ]
    (m : List (κ × α)) (k : κ) (v : α) : jsLookup (jsSet m k v) k = some v := by
  induction m with
  | nil => simp [jsSet, jsLookup]
  | cons hd tl ih =>
      obtain ⟨k', v'⟩ := hd
      by_cases h : k' = k
      · simp [jsSet, jsLookup, h]
      · simp [jsSet, jsLookup, h, ih]

theorem jsLookup_jsSet_ne {κ α : Type} [DecidableEq κ]
    (m : List (κ × α)) (k k' : κ) (v : α) (h : k ≠ k') :
    jsLookup (jsSet m k v) k' = jsLookup m k' := by
  induction m with
  | nil => simp [jsSet, jsLookup, h]
  | cons hd tl ih =>
      obtain ⟨k₀, v₀⟩ := hd
      by_cases h₀ : k₀ = k
      · subst h₀; simp [jsSet, jsLookup, h]
      · simp [jsSet, jsLookup, h₀, ih]

/-- Updating one key changes the sum by the difference between the new value
and the first-bound old value (`0` if absent) — exactly the effect of a JS
object assignment on the sum of a balances object. -/
theorem valsSum_jsSet {κ : Type} [DecidableEq κ]
    (m : List (κ × Int)) (k : κ) (v : Int) :
    valsSum (jsSet m k v) = valsSum m - jsGet m k 0 + v := by
  induction m with
  | nil => simp [jsSet, valsSum, jsGet, jsLookup]
  | cons hd tl ih =>
      obtain ⟨k', v'⟩ := hd
      by_cases h : k' = k
      · simp [jsSet, valsSum, jsGet, jsLookup, h]
        ring
      · simp [jsSet, valsSum, jsGet, jsLookup, h] at ih ⊢
        omega

end SBN

namespace SBN

theorem addTransaction_preserves (now : Int) (s : CoordState) (tx : Transaction) :
    (addTransaction now s tx).1.worldState = s.worldState ∧
    (addTransaction now s tx).1.blockHistory = s.blockHistory ∧
    (addTransaction now s tx).1.consensusConfig = s.consensusConfig := by
  simp only [addTransaction]
  split_ifs <;> simp

theorem acquireProcessingLock_preserves (now : Int) (s : CoordState) :
    (acquireProcessingLock now s).1.worldState = s.worldState ∧
    (acquireProcessingLock now s).1.blockHistory = s.blockHistory ∧
    (acquireProcessingLock now s).1.consensusConfig = s.consensusConfig := by
  simp only [acquireProcessingLock]
  split_ifs <;> simp

theorem releaseProcessingLock_preserves (now : Int) (cq : Bool) (s : CoordState) :
    (releaseProcessingLock now cq s).worldState = s.worldState ∧
    (releaseProcessingLock now cq s).blockHistory = s.blockHistory ∧
    (releaseProcessingLock now cq s).consensusConfig = s.consensusConfig := by
  simp [releaseProcessingLock]

theorem packBlock_preserves (h : HashFns) (now : Int) (pid : String) (s : CoordState) :
    (packBlock h now pid s).1.worldState = s.worldState ∧
    (packBlock h now pid s).1.blockHistory = s.blockHistory ∧
    (packBlock h now pid s).1.consensusConfig = s.consensusConfig := by
  simp only [packBlock]
  split_ifs <;> simp

theorem prod3_ext {α β γ : Type} {p : α × β × γ} {a : α} {b : β} {c : γ}
    (h1 : p.1 = a) (h2 : p.2.1 = b) (h3 : p.2.2 = c) : p = (a, b, c) := by
  obtain ⟨x, y, z⟩ := p
  simp only at h1 h2 h3
  rw [h1, h2, h3]

theorem executeCommit_valsSum :
    ∀ (txs : List Transaction) (bal non : List (String × Int)),
      valsSum (executeCommit bal non txs).1 = valsSum bal := by
  intro txs
  induction txs with
  | nil => intro bal non; rfl
  | cons tx rest ih =>
      intro bal non
      simp only [executeCommit]
      split_ifs with h1 h2
      · exact ih bal non
      · exact ih bal non
      · have e1 := valsSum_jsSet bal tx.from_ (jsGet bal tx.from_ 0 - tx.amount)
        have e2 := valsSum_jsSet (jsSet bal tx.from_ (jsGet bal tx.from_ 0 - tx.amount))
          tx.to_ (jsGet (jsSet bal tx.from_ (jsGet bal tx.from_ 0 - tx.amount)) tx.to_ 0 + tx.amount)
        rw [ih]
        omega

theorem executeCommit_exec_length :
    ∀ (txs : List Transaction) (bal non : List (String × Int)),
      (executeCommit bal non txs).2.2.length ≤ txs.length := by
  intro txs
  induction txs with
  | nil => intro bal non; simp [executeCommit]
  | cons tx rest ih =>
      intro bal non
      simp only [executeCommit]
      split_ifs
      · exact le_trans (ih bal non) (by simp)
      · exact le_trans (ih bal non) (by simp)
      · simpa using ih _ _

theorem validateTxLoop_ok_iff :
    ∀ (txs : List Transaction) (bal non b n : List (String × Int)),
      validateTxLoop bal non txs = .ok (b, n) ↔
        executeCommit bal non txs = (b, n, txs) := by
  intro txs
  induction txs with
  | nil =>
      intro bal non b n
      simp [validateTxLoop, executeCommit, Prod.ext_iff, and_assoc]
  | cons tx rest ih =>
      intro bal non b n
      simp only [validateTxLoop, executeCommit]
      split_ifs with h1 h2
      · constructor
        · intro h; exact absurd h (by simp)
        · intro h
          exfalso
          have hlen := executeCommit_exec_length rest bal non
          have h22 : (executeCommit bal non rest).2.2 = tx :: rest := by
            rw [h]
          rw [h22] at hlen
          simp at hlen
      · constructor
        · intro h; exact absurd h (by simp)
        · intro h
          exfalso
          have hlen := executeCommit_exec_length rest bal non
          have h22 : (executeCommit bal non rest).2.2 = tx :: rest := by
            rw [h]
          rw [h22] at hlen
          simp at hlen
      · rw [ih]
        constructor
        · intro h
          rw [h]
        · intro h
          have h1' := congrArg Prod.fst h
          have h2' := congrArg (fun p => p.2.1) h
          have h3' := congrArg (fun p => p.2.2) h
          simp at h1' h2' h3'
          exact prod3_ext h1' h2' h3'

theorem validateTxLoop_error_iff (txs : List Transaction)
    (bal non : List (String × Int)) :
    (∃ e, validateTxLoop bal non txs = .error e) ↔
      (executeCommit bal non txs).2.2 ≠ txs := by
  constructor
  · rintro ⟨e, he⟩ hex
    have : executeCommit bal non txs =
        ((executeCommit bal non txs).1, (executeCommit bal non txs).2.1, txs) :=
      prod3_ext rfl rfl hex
    rw [← validateTxLoop_ok_iff] at this
    rw [he] at this
    exact absurd this (by simp)
  · intro hne
    cases hloop : validateTxLoop bal non txs with
    | error e => exact ⟨e, rfl⟩
    | ok p =>
        exfalso
        obtain ⟨b, n⟩ := p
        rw [validateTxLoop_ok_iff] at hloop
        exact hne (by rw [hloop])

theorem validateTxLoop_error_shape :
    ∀ (txs : List Transaction) (bal non : List (String × Int)) (e : ValidateResult),
      validateTxLoop bal non txs = .error e →
        (∃ a exp got, e = .invalidNonce a exp got) ∨
        (∃ a has needs, e = .insufficientBalanceFor a has needs) := by
  intro txs
  induction txs with
  | nil => intro bal non e h; exact absurd h (by simp [validateTxLoop])
  | cons tx rest ih =>
      intro bal non e h
      simp only [validateTxLoop] at h
      split_ifs at h with h1 h2
      · left
        refine ⟨tx.from_, jsGet non tx.from_ 0, tx.nonce, ?_⟩
        injection h with h'
        exact h'.symm
      · right
        refine ⟨tx.from_, jsGet bal tx.from_ 0, tx.amount, ?_⟩
        injection h with h'
        exact h'.symm
      · exact ih _ _ _ h

theorem commitBlock_fail_fst (verify : String → String → String → Bool) (now : Int)
    (s : CoordState) (block : Block) (votes : List ValidatorVote)
    (h : (commitBlock verify now s block votes).2 ≠ .ok) :
    (commitBlock verify now s block votes).1 = s := by
  simp only [commitBlock] at h ⊢
  split_ifs at h ⊢ with h1 h2 h3
  all_goals simp_all

theorem commitBlock_ok_fields (verify : String → String → String → Bool) (now : Int)
    (s : CoordState) (block : Block) (votes : List ValidatorVote)
    (h : (commitBlock verify now s block votes).2 = .ok) :
    block.header.height = s.worldState.latestBlockHeight + 1 ∧
    block.header.prevHash = s.worldState.latestBlockHash ∧
    (commitBlock verify now s block votes).1.worldState.latestBlockHeight
      = block.header.height ∧
    (commitBlock verify now s block votes).1.worldState.latestBlockHash = block.hash ∧
    (commitBlock verify now s block votes).1.worldState.balances
      = (executeCommit s.worldState.balances s.worldState.nonces block.transactions).1 ∧
    (commitBlock verify now s block votes).1.blockHistory
      = jsSet s.blockHistory block.header.height block := by
  simp only [commitBlock] at h ⊢
  split_ifs at h ⊢ with h1 h2 h3
  all_goals simp_all

end SBN

namespace SBN

theorem acquireProcessingLock_fail_fst (now : Int) (s : CoordState)
    (h : (acquireProcessingLock now s).2 = .roundInProgress ∨
      (acquireProcessingLock now s).2 = .empty) :
    (acquireProcessingLock now s).1 = s := by
  simp only [acquireProcessingLock] at h ⊢
  split_ifs at h ⊢ with h1 h2
  · rfl
  · rfl
  · simp_all

theorem chainInvAux_of_eq (s s' : CoordState)
    (hh : s'.blockHistory = s.blockHistory)
    (hl : s'.worldState.latestBlockHeight = s.worldState.latestBlockHeight)
    (hb : s'.worldState.latestBlockHash = s.worldState.latestBlockHash) :
    ChainInvAux s → ChainInvAux s' := by
  unfold ChainInvAux ChainInv histGet
  rw [hh, hl, hb]
  exact id

theorem chainInvAux_commit_ok (s : CoordState)
    (verify : String → String → String → Bool) (now : Int) (block : Block)
    (votes : List ValidatorVote)
    (hok : (commitBlock verify now s block votes).2 = .ok)
    (inv : ChainInvAux s) : ChainInvAux (commitBlock verify now s block votes).1 := by
  obtain ⟨⟨dense, link⟩, hL0, tip, htip, htipHash⟩ := inv
  obtain ⟨hh, hp, hl, hb, -, hhist⟩ := commitBlock_ok_fields verify now s block votes hok
  set L := s.worldState.latestBlockHeight with hLdef
  refine ⟨⟨?_, ?_⟩, ?_, ?_⟩
  · intro h h0 hle
    rw [hl, hh] at hle
    unfold histGet
    rw [hhist, hh]
    by_cases hcase : h = L + 1
    · subst hcase
      rw [jsLookup_jsSet_self]
      rfl
    · rw [jsLookup_jsSet_ne _ _ _ _ (by omega)]
      exact dense h h0 (by omega)
  · intro h b h1 hle hget
    rw [hl, hh] at hle
    unfold histGet at hget ⊢
    rw [hhist, hh] at hget ⊢
    by_cases hcase : h = L + 1
    · subst hcase
      rw [jsLookup_jsSet_self] at hget
      injection hget with hget
      subst hget
      refine ⟨by rw [hh], tip, ?_, ?_⟩
      · rw [jsLookup_jsSet_ne _ _ _ _ (by omega)]
        simpa using htip
      · rw [hp, ← htipHash]
    · rw [jsLookup_jsSet_ne _ _ _ _ (by omega)] at hget
      obtain ⟨hht, prev, hprev, hlink⟩ := link h b h1 (by omega) hget
      refine ⟨hht, prev, ?_, hlink⟩
      rw [jsLookup_jsSet_ne _ _ _ _ (by omega)]
      exact hprev
  · rw [hl, hh]; omega
  · refine ⟨block, ?_, ?_⟩
    · unfold histGet
      rw [hhist, hl, hh, jsLookup_jsSet_self]
    · rw [hb]

theorem chainInvAux_step (s s' : CoordState) (st : Step s s') :
    ChainInvAux s → ChainInvAux s' := by
  cases st with
  | addTx now tx =>
      have h := addTransaction_preserves now s tx
      exact chainInvAux_of_eq _ _ h.2.1 (by rw [h.1]) (by rw [h.1])
  | acquire now =>
      have h := acquireProcessingLock_preserves now s
      exact chainInvAux_of_eq _ _ h.2.1 (by rw [h.1]) (by rw [h.1])
  | release now clearQueue =>
      have h := releaseProcessingLock_preserves now clearQueue s
      exact chainInvAux_of_eq _ _ h.2.1 (by rw [h.1]) (by rw [h.1])
  | pack hf now proposerId =>
      have h := packBlock_preserves hf now proposerId s
      exact chainInvAux_of_eq _ _ h.2.1 (by rw [h.1]) (by rw [h.1])
  | commit verify now block votes =>
      intro inv
      by_cases hok : (commitBlock verify now s block votes).2 = .ok
      · exact chainInvAux_commit_ok s verify now block votes hok inv
      · rw [commitBlock_fail_fst verify now s block votes hok]
        exact inv

theorem chainInvAux_init (gb : Block) (bal non : List (String × Int))
    (vkeys : List String) (cfg : ConsensusConfig) (now : Int) :
    ChainInvAux (initGenesisState gb bal non vkeys cfg now) := by
  have hL : (initGenesisState gb bal non vkeys cfg now).worldState.latestBlockHeight = 0 := rfl
  refine ⟨⟨?_, ?_⟩, ?_, ?_⟩
  · intro h h0 hle
    rw [hL] at hle
    have : h = 0 := by omega
    subst this
    simp [initGenesisState, histGet, jsLookup]
  · intro h b h1 hle
    exfalso
    rw [hL] at hle
    omega
  · rw [hL]
  · refine ⟨gb, ?_, rfl⟩
    rw [hL]
    simp [initGenesisState, histGet, jsLookup]

end SBN

namespace SBN

/-- Claim C1.  The claim states that the stateRoot simulation of `packBlock`
(`computeStateRoot`) applies exactly the same transaction-filtering rule as
the execution loop of `commitBlock`, both skipping precisely on a sequence
mismatch or an exceeded balance.  This is refuted on the code: the simulation
loop checks only the running balance and never the nonce.  At a committed
state holding balance 10 and nonce 0 for the sender, a transaction with
nonce 1 and amount 5 is executed by the simulation but skipped by the commit
loop, so the two post-states — and the canonical-JSON pre-images fed to
SHA-256 — differ. -/
theorem packSimulation_diverges_from_commitExecution :
    simulatePack wsOneAccount.balances wsOneAccount.nonces [txNonceAhead]
      = ([("0xaa", 5), ("0xbb", 5)], [("0xaa", 1)]) ∧
    executeCommit wsOneAccount.balances wsOneAccount.nonces [txNonceAhead]
      = ([("0xaa", 10)], [], []) ∧
    (simulatePack wsOneAccount.balances wsOneAccount.nonces [txNonceAhead]).1
      ≠ (executeCommit wsOneAccount.balances wsOneAccount.nonces [txNonceAhead]).1 ∧
    stateRootPreimage wsOneAccount [txNonceAhead]
      ≠ encodeStateData
          (executeCommit wsOneAccount.balances wsOneAccount.nonces [txNonceAhead]).1
          (executeCommit wsOneAccount.balances wsOneAccount.nonces [txNonceAhead]).2.1 := by
  decide

/-- Claim C2.  The claim states that `commitBlock` requires
`requiredSignatures` valid votes from pairwise-DISTINCT validators, so that
duplicate votes carrying the same validator public key never count more than
once.  This is refuted on the code: the vote-filter loop checks membership in
`config.validators` and the signature but never deduplicates, so with three
configured validators and quorum 2 = ceil(2·3/3), the very same valid vote
supplied twice commits the block although only one distinct validator
signed. -/
theorem commitBlock_counts_duplicate_votes :
    (commitBlock verifyFix 0 stateAtGenesis blockOne [voteV1, voteV1]).2 = .ok ∧
    (([voteV1, voteV1].map (fun v => v.validatorPubKey)).dedup.length = 1) ∧
    stateAtGenesis.consensusConfig.requiredSignatures = 2 ∧
    requiredSigOf stateAtGenesis.consensusConfig.validators.length = 2 := by
  decide

/-- Claim C3.  The claim states that the packed `stateRoot` hashes the
canonical JSON of both the balances and the per-address sequences, so that
identical balances with different sequence values yield different roots.
This is refuted on the code: `objectToBytes` calls
`JSON.stringify(obj, Object.keys(obj).sort())`, and a replacer ARRAY filters
property names at every nesting level, so the nested `nonces` object — whose
keys are addresses, not `"balances"`/`"nonces"` — serializes as an empty
object.  Two world states with equal balances and different nonces therefore
produce the same pre-image and the same stateRoot under any hash
function. -/
theorem stateRoot_does_not_depend_on_sequences :
    (∀ sha : String → String,
      computeStateRoot sha wsNonceOne [] = computeStateRoot sha wsNonceTwo []) ∧
    wsNonceOne.balances = wsNonceTwo.balances ∧
    wsNonceOne.nonces ≠ wsNonceTwo.nonces ∧
    stateRootPreimage wsNonceOne []
      = "\x7b\"balances\":[[\"0xaa\",\"10\"]],\"nonces\":\x7b\x7d\x7d" := by
  refine ⟨fun sha => congrArg sha (by decide), by decide, by decide, by decide⟩

end SBN

namespace SBN

/-- Claim C6.  Commit is at-most-once: after a successful
`commitBlock(block, votes)`, any repeated `commitBlock` with the same block —
whatever votes, verifier, or clock it is given — fails the height check with
the wrong-height error (expected `height + 1`, got `height`) and returns the
post-commit state entirely unchanged (world state, pending queue, and block
history included). -/
theorem commitBlock_at_most_once
    (verify verify2 : String → String → String → Bool) (now now2 : Int)
    (s : CoordState) (block : Block) (votes votes2 : List ValidatorVote)
    (s1 : CoordState)
    (h : commitBlock verify now s block votes = (s1, .ok)) :
    commitBlock verify2 now2 s1 block votes2
      = (s1, .wrongHeight (block.header.height + 1) block.header.height) := by
  have h2 : (commitBlock verify now s block votes).2 = .ok := by rw [h]
  have hs1 : (commitBlock verify now s block votes).1 = s1 := by rw [h]
  have hfields := commitBlock_ok_fields verify now s block votes h2
  rw [hs1] at hfields
  obtain ⟨-, -, hl, -, -, -⟩ := hfields
  have hne : block.header.height ≠ s1.worldState.latestBlockHeight + 1 := by
    rw [hl]; omega
  simp only [commitBlock]
  rw [if_pos hne, hl]

/-- Witness for the at-most-once-commit theorem: committing the concrete
empty block `blockOne` on the single-validator genesis state succeeds and
produces `stateAfterBlockOne`; recommitting the same block there fails with
the wrong-height error and leaves the state untouched. -/
theorem commitBlock_at_most_once_witness :
    commitBlock verifyFix 7 stateAfterBlockOne blockOne []
      = (stateAfterBlockOne, .wrongHeight 2 1) :=
  commitBlock_at_most_once verifyFix verifyFix 0 7 stateOneValidator blockOne
    [voteV1] [] stateAfterBlockOne (by decide)

/-- Claim C7.  In every coordinator state reachable from an initialised
genesis state by any sequence of addTransaction, acquireProcessingLock,
releaseProcessingLock, packBlock, and commitBlock operations, the block
history is dense from 0 to `latestBlockHeight`, and every stored block at
height `h ≥ 1` has `header.height = h` and `header.prevHash` equal to the
hash of the stored block at `h - 1`. -/
theorem blockHistory_hash_chain (gb : Block) (bal non : List (String × Int))
    (vkeys : List String) (cfg : ConsensusConfig) (now : Int) (s : CoordState)
    (h : Reachable (initGenesisState gb bal non vkeys cfg now) s) :
    ChainInv s := by
  have aux : ChainInvAux s := by
    induction h with
    | refl => exact chainInvAux_init gb bal non vkeys cfg now
    | tail _ hbc ih => exact chainInvAux_step _ _ hbc ih
  exact aux.1

/-- Witness for the hash-chain theorem at a concrete freshly initialised
genesis state (reachable by the empty operation sequence). -/
theorem blockHistory_hash_chain_witness :
    ChainInv (initGenesisState gbFix [("0xaa", 10)] [("0xaa", 0)] ["0xv1"]
      cfgOneValidator 0) :=
  blockHistory_hash_chain gbFix [("0xaa", 10)] [("0xaa", 0)] ["0xv1"]
    cfgOneValidator 0 _ Relation.ReflTransGen.refl

/-- Claim C10.  Total supply is conserved: addTransaction,
acquireProcessingLock, releaseProcessingLock, and packBlock leave the
balances object unchanged whatever their outcome; the commit execution loop
debits and credits by the same amount so it preserves the sum of all
balances; and hence `commitBlock` — succeeding or failing — preserves the
sum of all account balances. -/
theorem total_supply_conserved (now1 now2 now3 now4 now5 : Int) (s : CoordState)
    (tx : Transaction) (clearQueue : Bool) (hf : HashFns) (pid : String)
    (verify : String → String → String → Bool) (block : Block)
    (votes : List ValidatorVote) :
    (addTransaction now1 s tx).1.worldState.balances = s.worldState.balances ∧
    (acquireProcessingLock now2 s).1.worldState.balances = s.worldState.balances ∧
    (releaseProcessingLock now3 clearQueue s).worldState.balances
      = s.worldState.balances ∧
    (packBlock hf now4 pid s).1.worldState.balances = s.worldState.balances ∧
    (∀ bal non txs, valsSum (executeCommit bal non txs).1 = valsSum bal) ∧
    valsSum (commitBlock verify now5 s block votes).1.worldState.balances
      = valsSum s.worldState.balances := by
  refine ⟨by rw [(addTransaction_preserves now1 s tx).1],
    by rw [(acquireProcessingLock_preserves now2 s).1],
    by rw [(releaseProcessingLock_preserves now3 clearQueue s).1],
    by rw [(packBlock_preserves hf now4 pid s).1],
    fun bal non txs => executeCommit_valsSum txs bal non, ?_⟩
  by_cases hok : (commitBlock verify now5 s block votes).2 = .ok
  · obtain ⟨-, -, -, -, hbal, -⟩ := commitBlock_ok_fields verify now5 s block votes hok
    rw [hbal]
    exact executeCommit_valsSum _ _ _
  · rw [commitBlock_fail_fst verify now5 s block votes hok]

end SBN

namespace SBN

/-- Claim C5.  `addTransaction` fails exactly when, checked in this order
against committed state only: some queued transaction already carries the
same hash (duplicate), the transaction's sequence differs from the sender's
committed sequence (sequence mismatch, reporting the expected value), or the
sender's committed balance is below the amount (insufficient balance);
otherwise the transaction is appended as the single new element at the
queue's tail.  In every case world state and block history are unchanged, and
on failure the whole state is unchanged. -/
theorem addTransaction_spec (now : Int) (s : CoordState) (tx : Transaction) :
    ((addTransaction now s tx).2 = .duplicateTransaction ↔
      ∃ t ∈ s.pendingQueue.transactions, t.hash = tx.hash) ∧
    (∀ expected : Int, (addTransaction now s tx).2 = .sequenceMismatch expected ↔
      (¬ ∃ t ∈ s.pendingQueue.transactions, t.hash = tx.hash) ∧
      tx.nonce ≠ jsGet s.worldState.nonces tx.from_ 0 ∧
      expected = jsGet s.worldState.nonces tx.from_ 0) ∧
    ((addTransaction now s tx).2 = .insufficientBalance ↔
      (¬ ∃ t ∈ s.pendingQueue.transactions, t.hash = tx.hash) ∧
      tx.nonce = jsGet s.worldState.nonces tx.from_ 0 ∧
      jsGet s.worldState.balances tx.from_ 0 < tx.amount) ∧
    ((addTransaction now s tx).2 = .ok ↔
      (¬ ∃ t ∈ s.pendingQueue.transactions, t.hash = tx.hash) ∧
      tx.nonce = jsGet s.worldState.nonces tx.from_ 0 ∧
      ¬ jsGet s.worldState.balances tx.from_ 0 < tx.amount) ∧
    (addTransaction now s tx).1.worldState = s.worldState ∧
    (addTransaction now s tx).1.blockHistory = s.blockHistory ∧
    ((addTransaction now s tx).2 = .ok →
      (addTransaction now s tx).1.pendingQueue.transactions
        = s.pendingQueue.transactions ++ [tx]) ∧
    ((addTransaction now s tx).2 ≠ .ok → (addTransaction now s tx).1 = s) := by
  have hdup : (s.pendingQueue.transactions.any (fun t => t.hash == tx.hash) = true) ↔
      ∃ t ∈ s.pendingQueue.transactions, t.hash = tx.hash := by
    simp [List.any_eq_true]
  simp only [addTransaction]
  split_ifs with h1 h2 h3
  · rw [hdup] at h1
    refine ⟨by simpa using h1, ?_, ?_, ?_, rfl, rfl, by simp, by simp⟩
    · intro expected; simp [h1]
    · simp [h1]
    · simp [h1]
  · rw [hdup] at h1
    refine ⟨by simpa using h1, ?_, ?_, ?_, rfl, rfl, by simp, by simp⟩
    · intro expected
      constructor
      · intro heq
        injection heq with heq
        exact ⟨h1, h2, heq.symm⟩
      · rintro ⟨-, -, rfl⟩; rfl
    · simp [h2]
    · simp [h2]
  · rw [hdup] at h1
    refine ⟨by simpa using h1, ?_, ?_, ?_, rfl, rfl, by simp, by simp⟩
    · intro expected; simp [h1, not_not.mp h2]
    · simp [h1, not_not.mp h2, h3]
    · simp [h3]
  · rw [hdup] at h1
    refine ⟨by simpa using h1, ?_, ?_, ?_, rfl, rfl, by simp, by simp⟩
    · intro expected; simp [not_not.mp h2]
    · simp [h3]
    · simp [h1, not_not.mp h2, h3]

end SBN

namespace SBN

/-- Claim C8.  `acquireProcessingLock` fails exactly when either the lock is
held and fresh (`processing = true` and `now - processingStartedAt` below
`consensusTimeoutMs`, failing with the round-in-progress error) or — checked
second — the queue is empty; in every other case, including a held lock older
than the timeout, it sets `processing := true` and
`processingStartedAt := now` and returns the current queue snapshot, leaving
the state otherwise unchanged.  The hypothesis excludes the JS-truthiness
corner in which the stored `processingStartedAt` is the number 0, which
`if (queue.processingStartedAt)` treats like an absent stamp. -/
theorem acquireProcessingLock_spec (now : Int) (s : CoordState)
    (hzero : s.pendingQueue.processingStartedAt ≠ some 0) :
    ((acquireProcessingLock now s).2 = .roundInProgress ↔ LockHeldFresh now s) ∧
    ((acquireProcessingLock now s).2 = .empty ↔
      ¬ LockHeldFresh now s ∧ s.pendingQueue.transactions = []) ∧
    (∀ q, (acquireProcessingLock now s).2 = .ok q ↔
      ¬ LockHeldFresh now s ∧ s.pendingQueue.transactions ≠ [] ∧
      q = { s.pendingQueue with
              processing := true,
              processingStartedAt := some now,
              lastUpdated := now }) ∧
    (∀ q, (acquireProcessingLock now s).2 = .ok q →
      (acquireProcessingLock now s).1 = { s with pendingQueue := q }) ∧
    ((acquireProcessingLock now s).2 = .roundInProgress ∨
      (acquireProcessingLock now s).2 = .empty →
      (acquireProcessingLock now s).1 = s) := by
  have hfresh :
      ((s.pendingQueue.processing &&
        (jsTruthyTime s.pendingQueue.processingStartedAt &&
          decide (now - (s.pendingQueue.processingStartedAt.getD 0)
            < s.consensusConfig.consensusTimeoutMs))) = true) ↔
      LockHeldFresh now s := by
    cases hsa : s.pendingQueue.processingStartedAt with
    | none => simp [LockHeldFresh, jsTruthyTime, hsa]
    | some t =>
        have ht : t ≠ 0 := by
          intro h0
          exact hzero (by rw [hsa, h0])
        simp [LockHeldFresh, jsTruthyTime, hsa, ht]
  simp only [acquireProcessingLock]
  split_ifs with h1 h2
  · rw [hfresh] at h1
    refine ⟨by simpa using h1, by simp [h1], by simp [h1], by simp, by simp⟩
  · rw [hfresh] at h1
    rw [List.length_eq_zero] at h2
    refine ⟨by simpa using h1, by simp [h1, h2], by simp [h2], by simp, by simp⟩
  · rw [hfresh] at h1
    rw [List.length_eq_zero] at h2
    refine ⟨by simp [h1], by simp [h2], ?_, ?_, by simp⟩
    · intro q
      constructor
      · intro heq
        injection heq with heq
        exact ⟨h1, h2, heq.symm⟩
      · rintro ⟨-, -, rfl⟩; rfl
    · intro q heq
      injection heq with heq
      rw [← heq]

/-- Witness for the lock-acquisition theorem: on a concrete state whose lock
was taken 5 ms past the epoch, a trigger at `now = 100` is still within the
3000 ms consensus timeout, so acquisition fails with round-in-progress. -/
theorem acquireProcessingLock_spec_witness :
    (acquireProcessingLock 100 stateHeldLock).2 = .roundInProgress :=
  ((acquireProcessingLock_spec 100 stateHeldLock (by decide)).1).mpr
    ⟨rfl, 5, rfl, by decide⟩

end SBN

namespace SBN

/-- Counterexample to claim C4 as stated.  The claim says the validator's
state-root check simulates with the same rules as `packBlock` — skipping
invalid transactions rather than rejecting the block — and reports a bad
state root only when the recomputed root differs from `header.stateRoot`.
On the concrete block `blockWithNonceAhead`, whose header `stateRoot` is
exactly the root the pack simulation computes (hash instantiated to the
identity), the root recomputed under the claimed rules matches the header,
yet `validateStateRoot` rejects the block with a nonce error instead of
returning valid. -/
theorem validateStateRoot_rejects_despite_matching_pack_root :
    computeStateRoot (fun str => str) wsOneAccount blockWithNonceAhead.transactions
      = blockWithNonceAhead.header.stateRoot ∧
    validateStateRoot (fun str => str) wsOneAccount blockWithNonceAhead
      = .invalidNonce "0xaa" 0 1 ∧
    validateStateRoot (fun str => str) wsOneAccount blockWithNonceAhead
      ≠ .valid := by
  refine ⟨rfl, by decide, by decide⟩

/-- Claim C4 (amended).  For every candidate block passing the height and
parent checks, the validator's state-root check simulates execution against a
snapshot of the coordinator's world state using the same per-transaction
validity rule as the execution loop of `commitBlock` (nonce match and
sufficient running balance), but — unlike `packBlock`'s simulation — it
REJECTS the whole block with a nonce or balance error as soon as a
transaction is invalid, which happens exactly when the commit loop would skip
some transaction; when every transaction is valid, its simulated post-state
coincides with the commit loop's and it reports a bad state root exactly when
the recomputed root differs from `header.stateRoot`. -/
theorem validateStateRoot_matches_commit_rules_but_rejects
    (sha : String → String) (ws : WorldState) (blk : Block)
    (hh : blk.header.height = ws.latestBlockHeight + 1)
    (hp : blk.header.prevHash = ws.latestBlockHash) :
    ((∃ e, validateTxLoop ws.balances ws.nonces blk.transactions = .error e) ↔
      (executeCommit ws.balances ws.nonces blk.transactions).2.2
        ≠ blk.transactions) ∧
    (∀ e, validateTxLoop ws.balances ws.nonces blk.transactions = .error e →
      validateStateRoot sha ws blk = e ∧
      ((∃ a exp got, e = .invalidNonce a exp got) ∨
        (∃ a has needs, e = .insufficientBalanceFor a has needs))) ∧
    (∀ b n, validateTxLoop ws.balances ws.nonces blk.transactions = .ok (b, n) →
      executeCommit ws.balances ws.nonces blk.transactions
        = (b, n, blk.transactions) ∧
      validateStateRoot sha ws blk =
        (if sha (encodeStateData b n) ≠ blk.header.stateRoot then
          .invalidStateRoot (sha (encodeStateData b n)) blk.header.stateRoot
        else .valid)) := by
  refine ⟨validateTxLoop_error_iff _ _ _, ?_, ?_⟩
  · intro e he
    refine ⟨?_, validateTxLoop_error_shape _ _ _ _ he⟩
    unfold validateStateRoot
    rw [if_neg (by simp [hh]), if_neg (by simp [hp]), he]
  · intro b n hok
    refine ⟨(validateTxLoop_ok_iff _ _ _ _ _).mp hok, ?_⟩
    unfold validateStateRoot
    rw [if_neg (by simp [hh]), if_neg (by simp [hp]), hok]

/-- Witness for the amended validator theorem at the concrete inputs of the
counterexample, whose height and parent hash satisfy the two hypotheses. -/
theorem validateStateRoot_matches_commit_rules_witness :
    (∃ e, validateTxLoop wsOneAccount.balances wsOneAccount.nonces
        blockWithNonceAhead.transactions = .error e) ↔
      (executeCommit wsOneAccount.balances wsOneAccount.nonces
        blockWithNonceAhead.transactions).2.2 ≠ blockWithNonceAhead.transactions :=
  (validateStateRoot_matches_commit_rules_but_rejects (fun str => str)
    wsOneAccount blockWithNonceAhead (by decide) (by decide)).1

/-- Counterexample to claim C9 as stated.  The claim says the trigger handler
surfaces no error when lock acquisition fails (in particular, no error
response for the empty-queue trigger).  On the concrete genesis state with an
empty pending queue, the handler returns a 409 response with
`success := false` carrying the coordinator's empty-queue error. -/
theorem handleTrigger_returns_error_on_empty_queue :
    (handleTriggerLockPhase 0 stateAtGenesis).2
      = some { success := false, httpStatus := 409,
               error := some "No pending transactions" } ∧
    (acquireProcessingLock 0 stateAtGenesis).2 = .empty ∧
    (handleTriggerLockPhase 0 stateAtGenesis).2 ≠ none := by
  decide

/-- Claim C9 (amended).  When the proposer's trigger handler fails to acquire
the processing lock — round already in progress or empty pending queue — it
returns a 409 response with `success := false` carrying the lock error; no
block is packed and the coordinator state is entirely unchanged. -/
theorem handleTrigger_lock_failure_409 (now : Int) (s : CoordState)
    (h : (acquireProcessingLock now s).2 = .roundInProgress ∨
      (acquireProcessingLock now s).2 = .empty) :
    handleTriggerLockPhase now s =
      (s, some { success := false, httpStatus := 409,
                 error := acquireErrorMessage (acquireProcessingLock now s).2 }) := by
  have hfst := acquireProcessingLock_fail_fst now s h
  rcases hres : acquireProcessingLock now s with ⟨s', r⟩
  rw [hres] at h hfst
  simp only at h hfst
  subst hfst
  unfold handleTriggerLockPhase
  rw [hres]
  cases r with
  | ok q => rcases h with h | h <;> exact absurd h (by simp)
  | roundInProgress => rfl
  | empty => rfl

/-- Witness for the amended trigger theorem: the empty-queue genesis state
makes lock acquisition fail, and the handler returns the 409 empty-queue
response with the state unchanged. -/
theorem handleTrigger_lock_failure_409_witness :
    handleTriggerLockPhase 0 stateAtGenesis =
      (stateAtGenesis, some { success := false, httpStatus := 409,
                              error := some "No pending transactions" }) :=
  handleTrigger_lock_failure_409 0 stateAtGenesis (Or.inr (by decide))

end SBN
